import Mathlib

/-!
Verification development for the turkish-dream-sft-optimizer pipeline.

The Python sources are shallowly embedded: strings are Lean `String`
(sequences of Unicode code points, matching Python `str` indexing and
`len`), machine-level text helpers work on `List Char`, Python floats are
modelled as exact rationals `ℚ`, fallible code returns `Except`, and the
nondeterministic completion order of the thread pool is modelled by
quantifying over permutations of the canonical chunk-result list.

Python `str.lower` is modelled on the alphabet the data set uses
(ASCII plus the Turkish letters Ç, Ğ, İ, Ö, Ş, Ü); the special two-code-point
lowering of U+0130 İ is approximated by the single letter i, which none of
the verified properties depend on.
-/

/-- Characters treated as whitespace by Python `str.strip` / `str.split` and
by the regex class `\s` (ASCII part, which is all the pipeline exercises). -/
def isPySpace (c : Char) : Bool :=
  c == ' ' || c == '\t' || c == '\n' || c == '\r' || c == '\x0b' || c == '\x0c'

/-- Model of Python `str.lower` on a single character, restricted to the
alphabet relevant to this repository: ASCII letters and the Turkish
uppercase letters. All other characters are left unchanged. -/
def pyLowerChar : Char → Char
  | 'A' => 'a' | 'B' => 'b' | 'C' => 'c' | 'D' => 'd' | 'E' => 'e' | 'F' => 'f'
  | 'G' => 'g' | 'H' => 'h' | 'I' => 'i' | 'J' => 'j' | 'K' => 'k' | 'L' => 'l'
  | 'M' => 'm' | 'N' => 'n' | 'O' => 'o' | 'P' => 'p' | 'Q' => 'q' | 'R' => 'r'
  | 'S' => 's' | 'T' => 't' | 'U' => 'u' | 'V' => 'v' | 'W' => 'w' | 'X' => 'x'
  | 'Y' => 'y' | 'Z' => 'z'
  | 'Ç' => 'ç' | 'Ğ' => 'ğ' | 'İ' => 'i' | 'Ö' => 'ö' | 'Ş' => 'ş' | 'Ü' => 'ü'
  | c => c

/-- The possible outputs of `pyLowerChar` on mapped characters; every result
of `pyLowerChar` is in this list or is the unchanged input. -/
def lowerOutputs : List Char :=
  ['a', 'b', 'c', 'd', 'e', 'f', 'g', 'h', 'i', 'j', 'k', 'l', 'm', 'n', 'o',
   'p', 'q', 'r', 's', 't', 'u', 'v', 'w', 'x', 'y', 'z',
   'ç', 'ğ', 'ö', 'ş', 'ü']

/-- Lower-casing of a character list, the `List Char` form of `str.lower`. -/
def lowerL (l : List Char) : List Char := l.map pyLowerChar

/-- Model of Python `str.lower` on strings. -/
def pyLower (s : String) : String := String.mk (lowerL s.toList)

/-- Model of the Python substring test `needle in hay` on character lists:
true iff `needle` occurs contiguously inside `hay` (the empty needle always
occurs). -/
def inL (needle : List Char) : List Char → Bool
  | [] => needle.isEmpty
  | c :: rest => needle.isPrefixOf (c :: rest) || inL needle rest

/-- Model of the Python substring test `needle in hay` on strings. -/
def pyIn (needle hay : String) : Bool := inL needle.toList hay.toList

/-- Helper for `pyStrip`: drop leading and trailing Python whitespace from a
character list. -/
def stripL (l : List Char) : List Char :=
  ((l.dropWhile isPySpace).reverse.dropWhile isPySpace).reverse

/-- Model of Python `str.strip()` (no argument form). -/
def pyStrip (s : String) : String := String.mk (stripL s.toList)

/-- Model of Python `str.split(sep)` for a one-character separator: split at
every occurrence, keeping empty pieces, so the result is always nonempty. -/
def splitByChar (sep : Char) : List Char → List (List Char)
  | [] => [[]]
  | c :: rest =>
    if c == sep then [] :: splitByChar sep rest
    else
      match splitByChar sep rest with
      | [] => [[c]]
      | p :: ps => (c :: p) :: ps

/-- Model of Python `str.split()` (no argument): split on whitespace runs and
drop the empty pieces. -/
def wordsL (l : List Char) : List (List Char) :=
  (l.foldr
    (fun c acc =>
      if isPySpace c then [] :: acc
      else
        match acc with
        | [] => [[c]]
        | p :: ps => (c :: p) :: ps)
    [[]]).filter (fun w => !w.isEmpty)

/-- One left-to-right pass replacing every non-overlapping pair of spaces by a
single space, the behaviour of Python `content.replace("  ", " ")`. -/
def replaceDoubleSpace : List Char → List Char
  | ' ' :: ' ' :: rest => ' ' :: replaceDoubleSpace rest
  | c :: rest => c :: replaceDoubleSpace rest
  | [] => []

/-! ## Data model

`CleanedRecord` mirrors the processed-record dictionary built by
`DreamDataProcessor.process_single_record` (src/data_processor.py).
Dictionary reads via `record.get(key, "")` are modelled by structure fields
with those defaults. -/

structure CleanedRecord where
  original_id : String := ""
  title : String := ""
  description : String := ""
  cleaned_content : String := ""
  dream_symbol : String := ""
  tags : List String := []
  seo_title : String := ""
  seo_description : String := ""
  original_length : Nat := 0
  cleaned_length : Nat := 0
  publish_date : String := ""
  url : String := ""
deriving DecidableEq

/-! ## DreamDataProcessor (src/data_processor.py) -/

/-- Fixed indicator-term list of
`DreamDataProcessor.validate_record_quality`, lines 185-243, transcribed
verbatim and in order. -/
def turkishIndicators : List String :=
  ["rüya", "rüyada", "rüyası", "rüyalar",
   "görmek", "görür", "görenin", "gören",
   "yorumlanır", "yorumu", "yorumlar", "delalet", "delalet eder",
   "tabir", "tabiri", "anlamı", "anlama gelir", "manası",
   "işaret", "işareti", "alamet", "belirtisi",
   "hayırlı", "hayırsız", "müjde", "uyarı", "bereket", "şifa",
   "rahmet", "kısmet", "nasip", "rızık", "sevap", "günah", "haram", "helal",
   "sevinç", "üzüntü", "korku", "endişe", "huzur", "sıkıntı",
   "mutluluk", "kaygı",
   "ileride", "gelecekte", "yakında", "başına gelecek",
   "karşılaşacak", "yaşayacak", "elde edecek"]

/-- Number of indicator terms occurring as substrings of the lower-cased
content; the Python `sum(1 for indicator in turkish_indicators if indicator
in content)` with `content = record["cleaned_content"].lower()`. -/
def countTurkishIndicators (content : String) : Nat :=
  (turkishIndicators.filter (fun ind => inL ind.toList (lowerL content.toList))).length

/-- `DreamDataProcessor.validate_record_quality` (lines 161-252): the chain of
early `return False` checks, transcribed in source order. -/
def validateRecordQuality (r : CleanedRecord) (minContentLength : Nat) : Bool :=
  if r.cleaned_content == "" then false
  else if r.cleaned_content.length < minContentLength then false
  else if r.dream_symbol == "" then false
  else if countTurkishIndicators r.cleaned_content < 2 then false
  else true

/-- Result dictionary of `DreamDataProcessor.extract_seo_content`. -/
structure SeoContent where
  seo_title : String := ""
  seo_description : String := ""
deriving DecidableEq

/-- One element of the `Properties` array. `dict` carries the optional
`IxName` and `Value` keys (`prop.get` defaults them to the empty string);
`nonDict` stands for any entry failing `isinstance(prop, dict)`. -/
inductive PropEntry where
  | nonDict : PropEntry
  | dict (ixName : Option String) (value : Option String) : PropEntry
deriving DecidableEq

/-- The `properties` argument of `extract_seo_content`: either a list of
entries or any non-list value (which fails `isinstance(properties, list)`). -/
inductive PropertiesInput where
  | notList : PropertiesInput
  | list (entries : List PropEntry) : PropertiesInput
deriving DecidableEq

/-- One iteration of the loop body in `extract_seo_content`
(lines 149-157): non-dict entries are skipped, and a matching entry with a
truthy value overwrites the field accumulated so far. -/
def extractSeoStep (acc : SeoContent) (e : PropEntry) : SeoContent :=
  match e with
  | .nonDict => acc
  | .dict ixName value =>
    let ix_name := pyLower (ixName.getD "")
    let v := value.getD ""
    if ix_name == "seotitle" && v != "" then { acc with seo_title := pyStrip v }
    else if ix_name == "seodescription" && v != "" then
      { acc with seo_description := pyStrip v }
    else acc

/-- `DreamDataProcessor.extract_seo_content` (lines 134-159). -/
def extractSeoContent : PropertiesInput → SeoContent
  | .notList => {}
  | .list entries => entries.foldl extractSeoStep {}

/-- `DreamDataProcessor.process_batch` (lines 314-343) keeps, in input order,
the records on which `process_single_record` returns a record rather than
`None`. The per-record function is a parameter: its interesting part
(`clean_html_content`) wraps an HTML parser that has no shallow embedding,
and the batch claims hold for every choice of it. -/
def processBatch (f : α → Option β) (records : List α) : List β :=
  records.filterMap f

/-! ### extract_dream_symbol (lines 80-104)

The three patterns `Rüyada\s+(\w+)\s+Görmek`, `Rüyada\s+(\w+)` and
`(\w+)\s+Görmek` are searched with `re.IGNORECASE`. Because `\w` and `\s`
are disjoint character classes, greedy matching never backtracks here, so
each pattern has a deterministic matcher: literals compare case-folded,
`\s+`/`\w+` take maximal nonempty runs, and `re.search` tries start
positions left to right. `\w` is modelled on the alphabet of the data set:
ASCII word characters plus the Turkish letters. -/

/-- Model of the regex class `\w` restricted to ASCII word characters and
Turkish letters (the alphabet of the titles this pipeline processes). -/
def isWordChar (c : Char) : Bool :=
  ('a' ≤ c && c ≤ 'z') || ('A' ≤ c && c ≤ 'Z') || ('0' ≤ c && c ≤ '9') ||
  c == '_' ||
  c == 'ç' || c == 'ğ' || c == 'ı' || c == 'ö' || c == 'ş' || c == 'ü' ||
  c == 'Ç' || c == 'Ğ' || c == 'İ' || c == 'Ö' || c == 'Ş' || c == 'Ü'

/-- Case-insensitive literal match at the head of the input; on success,
returns the remaining input. -/
def matchCI : List Char → List Char → Option (List Char)
  | [], s => some s
  | _ :: _, [] => none
  | p :: ps, c :: cs =>
    if pyLowerChar c == pyLowerChar p then matchCI ps cs else none

/-- Anchored matcher for `Rüyada\s+(\w+)\s+Görmek`; returns the capture. -/
def matchAt1 (s : List Char) : Option (List Char) :=
  match matchCI "Rüyada".toList s with
  | none => none
  | some r1 =>
    if r1.takeWhile isPySpace = [] then none else
    let r2 := r1.dropWhile isPySpace
    let w := r2.takeWhile isWordChar
    if w = [] then none else
    let r3 := r2.dropWhile isWordChar
    if r3.takeWhile isPySpace = [] then none else
    match matchCI "Görmek".toList (r3.dropWhile isPySpace) with
    | some _ => some w
    | none => none

/-- Anchored matcher for `Rüyada\s+(\w+)`; returns the capture. -/
def matchAt2 (s : List Char) : Option (List Char) :=
  match matchCI "Rüyada".toList s with
  | none => none
  | some r1 =>
    if r1.takeWhile isPySpace = [] then none else
    let r2 := r1.dropWhile isPySpace
    let w := r2.takeWhile isWordChar
    if w = [] then none else some w

/-- Anchored matcher for `(\w+)\s+Görmek`; returns the capture. -/
def matchAt3 (s : List Char) : Option (List Char) :=
  let w := s.takeWhile isWordChar
  if w = [] then none else
  let r2 := s.dropWhile isWordChar
  if r2.takeWhile isPySpace = [] then none else
  match matchCI "Görmek".toList (r2.dropWhile isPySpace) with
  | some _ => some w
  | none => none

/-- `re.search`: try the anchored matcher at each start position, left to
right. -/
def searchScan (f : List Char → Option (List Char)) : List Char → Option (List Char)
  | [] => f []
  | c :: t =>
    match f (c :: t) with
    | some w => some w
    | none => searchScan f t

/-- Stoplist of generic words filtered in `extract_dream_symbol`
(line 101). -/
def symbolStoplist : List String := ["ne", "nedir", "anlama", "gelir", "neye"]

/-- Per-pattern step of the loop in `extract_dream_symbol`: if the pattern
matched, lower-case the capture and return it unless it is stoplisted
(a stoplisted capture falls through to the next pattern). -/
def tryPattern (res : Option (List Char)) : Option String :=
  match res with
  | some w =>
    let symbol := String.mk (lowerL w)
    if symbol ∈ symbolStoplist then none else some symbol
  | none => none

/-- `DreamDataProcessor.extract_dream_symbol` (lines 80-104). -/
def extractDreamSymbol (title : String) : String :=
  if title == "" then ""
  else
    match tryPattern (searchScan matchAt1 title.toList) with
    | some s => s
    | none =>
      match tryPattern (searchScan matchAt2 title.toList) with
      | some s => s
      | none =>
        match tryPattern (searchScan matchAt3 title.toList) with
        | some s => s
        | none => ""


/-! ## SFT formatters (src/formatters.py; the src/formatters package holds
the same `base`/`openai`/`cohere` code split into one file per class) -/

/-- The ten question templates of `BaseSFTFormatter.__init__` (lines 23-34),
as substitution functions: applying one to a symbol is the Python
`template.format(symbol=dream_symbol)`. -/
def questionTemplates : List (String → String) :=
  [fun s => "Rüyamda " ++ s ++ " gördüm, ne anlama gelir?",
   fun s => "Rüyada " ++ s ++ " görmek neye işaret eder?",
   fun s => s ++ " rüyası nasıl yorumlanır?",
   fun s => "Rüyada " ++ s ++ " görmenin anlamı nedir?",
   fun s => s ++ " rüyasının tabiri nedir?",
   fun s => "Rüyamda " ++ s ++ " vardı, bu neyi ifade eder?",
   fun s => "Rüyada " ++ s ++ " görmek iyi mi kötü mü?",
   fun s => s ++ " ile ilgili rüyamın açıklaması nedir?",
   fun s => "Rüyada " ++ s ++ " görmek hakkında ne dersiniz?",
   fun s => s ++ " rüyasının İslami yorumu nedir?"]

/-- The fixed system message of `BaseSFTFormatter.__init__` (lines 37-43). -/
def systemMessage : String :=
  "Sen uzman bir Türk rüya yorumcususun. Türk kültürü ve İslami geleneklere uygun olarak rüya tabirlerini açıklarsın. Rüyaları yorumlarken:\n\n1. Türk halk kültürü ve İslami kaynaklara dayanarak açıklama yap\n2. Hem olumlu hem olumsuz anlamları belirt\n3. Kültürel bağlamı ve geleneksel yorumları dahil et\n4. Açıklayıcı ve anlayışlı bir dil kullan\n5. Rüya sahibinin durumuna göre farklı yorumlar olabileceğini belirt"

/-- `BaseSFTFormatter.generate_questions` (lines 50-97). -/
def generateQuestions (dream_symbol : String) (r : CleanedRecord) : List String :=
  let questions :=
    if dream_symbol != "" then
      let symbolQuestions := (questionTemplates.take 6).map (fun t => t dream_symbol)
      let title := r.title
      symbolQuestions ++
        (if title != "" && !(inL (lowerL dream_symbol.toList) (lowerL title.toList)) then
          [title ++ " hakkında ne söyleyebilirsiniz?"]
        else [])
    else
      let title := r.title
      if title != "" then
        [title ++ " ne anlama gelir?",
         title ++ " nasıl yorumlanır?",
         title ++ " hakkında bilgi verir misiniz?"]
      else []
  let tagQuestions :=
    ((r.tags.take 2).filter (fun tag => tag != "" && tag != dream_symbol)).map
      (fun tag => "Rüyada " ++ tag ++ " görmek neyi ifade eder?")
  (questions ++ tagQuestions).take 4

/-- `BaseSFTFormatter.clean_content_for_answer` (lines 99-129), on character
lists: split on line breaks, strip each piece and drop the empty ones, keep
only pieces longer than 30 characters, keep at most the first 4, rejoin with
a blank line, collapse double spaces, strip. -/
def cleanAnswerL (l : List Char) : List Char :=
  let paragraphs := ((splitByChar '\n' l).map stripL).filter (fun p => !p.isEmpty)
  let paragraphs := paragraphs.filter (fun p => 30 < p.length)
  let paragraphs := if 4 < paragraphs.length then paragraphs.take 4 else paragraphs
  stripL (replaceDoubleSpace (List.intercalate "\n\n".toList paragraphs))

/-- `BaseSFTFormatter.clean_content_for_answer`, including the early return
on falsy content. -/
def cleanContentForAnswer (content : String) : String :=
  if content == "" then "" else String.mk (cleanAnswerL content.toList)

/-- One message of the OpenAI chat format. -/
structure ChatMessage where
  role : String
  content : String
deriving DecidableEq

/-- The metadata block attached to every training example (identical in the
two formats). -/
structure ExampleMetadata where
  dream_symbol : String
  original_id : String
  source_url : String
deriving DecidableEq

/-- An OpenAI-format training example (`messages` plus `metadata`). -/
structure OpenAIExample where
  messages : List ChatMessage
  metadata : ExampleMetadata
deriving DecidableEq

/-- A Cohere-format training example (`prompt`/`completion` plus
`metadata`). -/
structure CohereExample where
  prompt : String
  completion : String
  metadata : ExampleMetadata
deriving DecidableEq

/-- `OpenAIFormatter.format_single_record` (lines 167-202). -/
def openaiFormatSingleRecord (r : CleanedRecord) : List OpenAIExample :=
  let dream_symbol := r.dream_symbol
  let content := cleanContentForAnswer r.cleaned_content
  if content == "" then []
  else
    (generateQuestions dream_symbol r).map (fun question =>
      { messages :=
          [{ role := "system", content := systemMessage },
           { role := "user", content := question },
           { role := "assistant", content := content }],
        metadata :=
          { dream_symbol := dream_symbol,
            original_id := r.original_id,
            source_url := r.url } })

/-- `CohereFormatter.format_single_record` (lines 208-247). -/
def cohereFormatSingleRecord (r : CleanedRecord) : List CohereExample :=
  let dream_symbol := r.dream_symbol
  let content := cleanContentForAnswer r.cleaned_content
  if content == "" then []
  else
    (generateQuestions dream_symbol r).map (fun question =>
      { prompt :=
          "Sen uzman bir Türk rüya yorumcususun. Türk kültürü ve İslami geleneklere uygun rüya tabirleri yaparsın.\n\nSoru: " ++
            question ++ "\n\nCevap:",
        completion := content,
        metadata :=
          { dream_symbol := dream_symbol,
            original_id := r.original_id,
            source_url := r.url } })

/-- `BaseSFTFormatter.format_batch` (lines 131-161): concatenate the
per-record example lists in record order. The `try`/`except` around each
record cannot fire in the embedded (pure, total) formatters, so every record
contributes its `format_single_record` output. -/
def formatBatch (fmt : β → List γ) (records : List β) : List γ :=
  (records.map fmt).flatten

/-! ## QualityChecker (src/quality_checker.py)

Python floats are modelled as exact rationals; the only float literal on a
scored path is the repetition threshold `len(words) * 0.1`, modelled as the
exact ratio 1/10. -/

/-- `QualityChecker.turkish_dream_keywords` (lines 18-38). -/
def turkishDreamKeywords : List String :=
  ["rüya", "rüyada", "görmek", "tabir", "yorumlanır", "delalet", "işaret",
   "anlam", "düşman", "hayır", "şer", "bereket", "rızk", "manevi", "maddi",
   "hane", "zarar", "fayda", "hayırlı"]

/-- `QualityChecker.quality_issues` (lines 40-49). -/
def qualityIssues : List String :=
  ["netcore", "seo", "amp", "milliyet", "pembenar", "çok fazla tekrar",
   "anlamsız", "test"]

/-- Length penalty of `analyze_content_quality` (lines 73-78): 30 below 100
characters, else 10 above 5000 characters. -/
def lengthPenalty (content : String) : Int :=
  if content.length < 100 then 30
  else if 5000 < content.length then 10
  else 0

/-- Count of `turkish_dream_keywords` found in the lower-cased content
(lines 81-83). -/
def culturalIndicatorCount (content : String) : Nat :=
  (turkishDreamKeywords.filter (fun k => inL k.toList (lowerL content.toList))).length

/-- The `quality_issues` markers found in the lower-cased content
(lines 90-94); each one found costs 15 points. -/
def noiseFound (content : String) : List String :=
  qualityIssues.filter (fun k => inL k.toList (lowerL content.toList))

/-- Sentence list of the readability check: `content.split(".")`
(line 97). -/
def sentencesOf (content : String) : List (List Char) :=
  splitByChar '.' content.toList

/-- Average words per sentence (lines 98-100), as an exact rational. -/
def avgSentenceLength (content : String) : ℚ :=
  (((sentencesOf content).map (fun s => (wordsL s).length)).sum : ℚ) /
    (max (sentencesOf content).length 1 : ℚ)

/-- Word list of the repetition check: `content.lower().split()`
(line 111). -/
def contentWords (content : String) : List (List Char) :=
  wordsL (lowerL content.toList)

/-- Highest single-word frequency, the count in `most_common[0]`
(lines 112-113); 0 when there are no words, when `most_common` is empty and
the repetition branch is skipped. -/
def maxWordFreq (content : String) : Nat :=
  ((contentWords content).map (fun w => (contentWords content).count w)).foldr max 0

/-- The repetition test of lines 115-117: some word exceeds 10 percent of the
word count (`most_common[0][1] > len(words) * 0.1` with a nonempty
`most_common`). -/
def repetitionFlag (content : String) : Bool :=
  !(contentWords content).isEmpty &&
    decide ((((contentWords content).length : ℚ) * (1 / 10)) < (maxWordFreq content : ℚ))

/-- Result dictionary of `analyze_content_quality`. The empty-content early
return (lines 61-67) carries only the first four fields; the remaining
fields are modelled as 0 there (no caller reads them on that path). -/
structure ContentQuality where
  quality_score : Int
  issues : List String
  cultural_indicators : Nat
  readability_score : Int
  content_length : Nat
  sentence_count : Nat
  avg_sentence_length : ℚ
  unique_words : Nat
deriving DecidableEq

/-- `QualityChecker.analyze_content_quality` (lines 51-133). -/
def analyzeContentQuality (content : String) : ContentQuality :=
  if content == "" then
    { quality_score := 0, issues := ["empty_content"], cultural_indicators := 0,
      readability_score := 0, content_length := 0, sentence_count := 0,
      avg_sentence_length := 0, unique_words := 0 }
  else
    let lengthIssues : List String :=
      if content.length < 100 then ["too_short"]
      else if 5000 < content.length then ["too_long"] else []
    let cultural := culturalIndicatorCount content
    let culturalIssues : List String :=
      if cultural < 3 then ["low_cultural_context"] else []
    let culturalPenalty : Int := if cultural < 3 then 20 else 0
    let noise := noiseFound content
    let noiseIssues := noise.map (fun i => "contains_" ++ i)
    let avg := avgSentenceLength content
    let readabilityIssues : List String :=
      if 30 < avg then ["long_sentences"]
      else if avg < 5 then ["short_sentences"] else []
    let readability : Int :=
      if 30 < avg then 80 else if avg < 5 then 90 else 100
    let repetitionIssues : List String :=
      if repetitionFlag content then ["repetitive_content"] else []
    let repetitionPenalty : Int := if repetitionFlag content then 15 else 0
    let score : Int :=
      100 - lengthPenalty content - culturalPenalty - 15 * noise.length -
        repetitionPenalty
    { quality_score := max 0 score,
      issues := lengthIssues ++ culturalIssues ++ noiseIssues ++
        readabilityIssues ++ repetitionIssues,
      cultural_indicators := cultural,
      readability_score := readability,
      content_length := content.length,
      sentence_count := (sentencesOf content).length,
      avg_sentence_length := avg,
      unique_words := (contentWords content).dedup.length }

/-- Python division, which raises `ZeroDivisionError` on a zero
denominator. -/
def pyDiv (a b : ℚ) : Except String ℚ :=
  if b = 0 then .error "ZeroDivisionError" else .ok (a / b)

/-- Model of Python `round(x, 2)` on rationals (Python rounds ties to even;
no verified property depends on tie behaviour). -/
def round2 (q : ℚ) : ℚ := (round (q * 100) : ℚ) / 100

/-- Result of `analyze_dream_symbol_coverage`; the informational `top 10` and
singleton listings are summarised by the counts the report keeps. -/
structure SymbolCoverage where
  total_symbol_instances : Nat
  unique_symbols : Nat
  distribution_balance_score : ℚ
  coverage_quality_score : ℚ
  singleton_symbols : Nat
  avg_instances_per_symbol : ℚ
deriving DecidableEq

/-- `QualityChecker.analyze_dream_symbol_coverage` (lines 135-190): all
divisions are guarded by the `if symbol_counts` branch and ternaries. -/
def analyzeDreamSymbolCoverage (records : List CleanedRecord) : SymbolCoverage :=
  let symbols := (records.filter (fun r => r.dream_symbol != "")).map (·.dream_symbol)
  let total := symbols.length
  let uniq := symbols.dedup.length
  let maxCount := (symbols.map (fun s => symbols.count s)).foldr max 0
  let singletons := (symbols.dedup.filter (fun s => symbols.count s == 1)).length
  let wellRepresented := (symbols.dedup.filter (fun s => 5 ≤ symbols.count s)).length
  let balance : ℚ :=
    if total ≠ 0 then max 0 (100 - (maxCount : ℚ) / (total : ℚ) * 100) else 0
  let coverage : ℚ :=
    if total ≠ 0 then
      (if uniq ≠ 0 then (wellRepresented : ℚ) / (uniq : ℚ) * 100 else 0)
    else 0
  { total_symbol_instances := total,
    unique_symbols := uniq,
    distribution_balance_score := round2 balance,
    coverage_quality_score := round2 coverage,
    singleton_symbols := singletons,
    avg_instances_per_symbol := round2 ((total : ℚ) / (max uniq 1 : ℚ)) }

/-- Result of `analyze_content_completeness`. -/
structure Completeness where
  total_records : Nat
  has_title : Nat
  has_content : Nat
  has_dream_symbol : Nat
  has_tags : Nat
  has_description : Nat
  has_seo_title : Nat
  has_url : Nat
  pct_title : ℚ
  pct_content : ℚ
  pct_dream_symbol : ℚ
  overall_completeness : ℚ
deriving DecidableEq

/-- `QualityChecker.analyze_content_completeness` (lines 192-233): the
percentage ternaries guard the zero-record case. Only the three percentages
feeding `overall_completeness` are kept as fields. -/
def analyzeContentCompleteness (records : List CleanedRecord) : Completeness :=
  let n := records.length
  let pct := fun (count : Nat) => if n ≠ 0 then (count : ℚ) / (n : ℚ) * 100 else 0
  let hasTitle := (records.filter (fun r => r.title != "")).length
  let hasContent := (records.filter (fun r => r.cleaned_content != "")).length
  let hasSymbol := (records.filter (fun r => r.dream_symbol != "")).length
  { total_records := n,
    has_title := hasTitle,
    has_content := hasContent,
    has_dream_symbol := hasSymbol,
    has_tags := (records.filter (fun r => !r.tags.isEmpty)).length,
    has_description := (records.filter (fun r => r.description != "")).length,
    has_seo_title := (records.filter (fun r => r.seo_title != "")).length,
    has_url := (records.filter (fun r => r.url != "")).length,
    pct_title := pct hasTitle,
    pct_content := pct hasContent,
    pct_dream_symbol := pct hasSymbol,
    overall_completeness := (pct hasTitle + pct hasContent + pct hasSymbol) / 3 }

/-- Result of `analyze_training_readiness`. The empty-record early return of
lines 247-253 carries no `quality_distribution` key; its buckets are
modelled as 0 (no caller reads them on that path). -/
structure TrainingReadiness where
  training_ready_count : Nat
  training_readiness_percentage : ℚ
  average_quality_score : ℚ
  excellent : Nat
  good : Nat
  fair : Nat
  poor : Nat
  recommendations : List String
deriving DecidableEq

/-- `QualityChecker.analyze_training_readiness` (lines 235-297). -/
def analyzeTrainingReadiness (records : List CleanedRecord) : TrainingReadiness :=
  if records.isEmpty then
    { training_ready_count := 0, training_readiness_percentage := 0,
      average_quality_score := 0, excellent := 0, good := 0, fair := 0,
      poor := 0, recommendations := ["No records to analyze"] }
  else
    let scores := records.map
      (fun r => (analyzeContentQuality r.cleaned_content).quality_score)
    let ready := (records.filter (fun r =>
      70 < (analyzeContentQuality r.cleaned_content).quality_score &&
        r.dream_symbol != "" && 100 ≤ r.cleaned_content.length)).length
    let avg : ℚ :=
      if !scores.isEmpty then ((scores.map (fun s => (s : ℚ))).sum) / (scores.length : ℚ)
      else 0
    let pct : ℚ := (ready : ℚ) / (records.length : ℚ) * 100
    { training_ready_count := ready,
      training_readiness_percentage := pct,
      average_quality_score := avg,
      excellent := (scores.filter (fun s => 90 ≤ s)).length,
      good := (scores.filter (fun s => 70 ≤ s && s < 90)).length,
      fair := (scores.filter (fun s => 50 ≤ s && s < 70)).length,
      poor := (scores.filter (fun s => s < 50)).length,
      recommendations :=
        (if avg < 70 then ["Improve content quality by better HTML cleaning"] else []) ++
        (if pct < 80 then ["Filter out low-quality records before training"] else []) ++
        (if records.length < 1000 then
          ["Consider data augmentation to increase dataset size"] else []) }

/-- Traditional-context keyword list of `analyze_cultural_authenticity`
(lines 312-324). -/
def traditionalIndicators : List String :=
  ["alim", "tabir", "delalet", "işaret", "imam", "diyanet", "islami",
   "geleneksel", "halk", "kültür", "türk"]

/-- Islamic keyword list of `analyze_cultural_authenticity`
(lines 326-338). -/
def islamicKeywords : List String :=
  ["allah", "peygamber", "dua", "namaz", "haram", "helal", "sevap", "günah",
   "ahiret", "cennet", "cehennem"]

/-- Number of traditional indicators found in the lower-cased content of a
record. -/
def traditionalCount (r : CleanedRecord) : Nat :=
  (traditionalIndicators.filter
    (fun k => inL k.toList (lowerL r.cleaned_content.toList))).length

/-- Number of Islamic keywords found in the lower-cased content of a
record. -/
def islamicCount (r : CleanedRecord) : Nat :=
  (islamicKeywords.filter
    (fun k => inL k.toList (lowerL r.cleaned_content.toList))).length

/-- Per-record cultural score, `min(100, traditional*10 + islamic*5)`
(line 353). -/
def culturalScore (r : CleanedRecord) : ℚ :=
  min 100 ((traditionalCount r : ℚ) * 10 + (islamicCount r : ℚ) * 5)

/-- Result of `analyze_cultural_authenticity`. -/
structure CulturalAuthenticity where
  average_cultural_authenticity : ℚ
  records_with_traditional_context : Nat
  records_with_islamic_context : Nat
  traditional_context_percentage : ℚ
  islamic_context_percentage : ℚ
  high : Nat
  medium : Nat
  low : Nat
deriving DecidableEq

/-- `QualityChecker.analyze_cultural_authenticity` (lines 299-377). The mean
score is guarded by a ternary, but the two context percentages divide by
`len(records)` unguarded (lines 369-371), so the empty record list raises
`ZeroDivisionError`; the embedding surfaces that through `pyDiv`. -/
def analyzeCulturalAuthenticity (records : List CleanedRecord) :
    Except String CulturalAuthenticity := do
  let scores := records.map culturalScore
  let hasTraditional := (records.filter (fun r => 0 < traditionalCount r)).length
  let hasIslamic := (records.filter (fun r => 0 < islamicCount r)).length
  let avg : ℚ :=
    if !scores.isEmpty then scores.sum / (scores.length : ℚ) else 0
  let tRatio ← pyDiv (hasTraditional : ℚ) (records.length : ℚ)
  let iRatio ← pyDiv (hasIslamic : ℚ) (records.length : ℚ)
  .ok
    { average_cultural_authenticity := avg,
      records_with_traditional_context := hasTraditional,
      records_with_islamic_context := hasIslamic,
      traditional_context_percentage := tRatio * 100,
      islamic_context_percentage := iRatio * 100,
      high := (scores.filter (fun s => 50 ≤ s)).length,
      medium := (scores.filter (fun s => 20 ≤ s && s < 50)).length,
      low := (scores.filter (fun s => s < 20)).length }

/-- `QualityChecker._generate_improvement_recommendations`
(lines 432-466). -/
def generateImprovementRecommendations (overall : ℚ) (tr : TrainingReadiness)
    (ca : CulturalAuthenticity) : List String :=
  (if overall < 70 then ["Overall data quality needs significant improvement"] else []) ++
  (if tr.training_readiness_percentage < 80 then
    ["Consider additional data cleaning and filtering"] else []) ++
  (if ca.average_cultural_authenticity < 30 then
    ["Enhance cultural context preservation in content cleaning"] else []) ++
  (if tr.average_quality_score < 70 then
    ["Improve HTML cleaning and content extraction algorithms"] else []) ++
  (if 80 ≤ overall then ["Data quality is excellent - ready for SFT training"] else []) ++
  (if 90 ≤ tr.training_readiness_percentage then
    ["High training readiness - consider advanced data augmentation"] else [])

/-- The comprehensive quality report of `analyze_batch`. -/
structure QualityReport where
  overall_quality_score : ℚ
  quality_grade : String
  total_records_analyzed : Nat
  symbol_coverage_analysis : SymbolCoverage
  content_completeness_analysis : Completeness
  training_readiness_analysis : TrainingReadiness
  cultural_authenticity_analysis : CulturalAuthenticity
  improvement_recommendations : List String
deriving DecidableEq

/-- `QualityChecker.analyze_batch` (lines 379-430). An exception raised by a
sub-analysis propagates out of `analyze_batch`, which the `Except` monad
models. -/
def analyzeBatch (records : List CleanedRecord) : Except String QualityReport := do
  let symbolCoverage := analyzeDreamSymbolCoverage records
  let completeness := analyzeContentCompleteness records
  let trainingReadiness := analyzeTrainingReadiness records
  let culturalAuthenticity ← analyzeCulturalAuthenticity records
  let overall : ℚ :=
    (completeness.overall_completeness +
      trainingReadiness.training_readiness_percentage +
      culturalAuthenticity.average_cultural_authenticity +
      symbolCoverage.distribution_balance_score) / 4
  let grade :=
    if 90 ≤ overall then "EXCELLENT"
    else if 75 ≤ overall then "GOOD"
    else if 60 ≤ overall then "FAIR"
    else "NEEDS_IMPROVEMENT"
  .ok
    { overall_quality_score := round2 overall,
      quality_grade := grade,
      total_records_analyzed := records.length,
      symbol_coverage_analysis := symbolCoverage,
      content_completeness_analysis := completeness,
      training_readiness_analysis := trainingReadiness,
      cultural_authenticity_analysis := culturalAuthenticity,
      improvement_recommendations :=
        generateImprovementRecommendations overall trainingReadiness
          culturalAuthenticity }


/-! ## ParallelDreamProcessor (src/core/parallel_processor.py)

The thread pool is modelled by quantifying over the order in which chunk
futures complete: the collected result list is an arbitrary permutation of
the canonical per-chunk results. The per-chunk try block (processor plus the
two formatters) is a parameter `body` returning `Except`, so a raising chunk
task is a `body` returning `.error`. -/

/-- Banded automatic chunk sizing, `calculate_optimal_chunk_size`
(lines 73-81); `//` on non-negative ints is `Nat` division. The result is
always at least 1. -/
def autoChunkSize (maxWorkers total : Nat) : Nat :=
  if total ≤ 100 then max 1 (total / maxWorkers)
  else if total ≤ 500 then max 10 (total / (maxWorkers * 2))
  else if total ≤ 2000 then max 25 (total / (maxWorkers * 3))
  else max 50 (total / (maxWorkers * 4))

/-- `calculate_optimal_chunk_size` (lines 60-81). A configured chunk size is
used as-is when truthy; `None` and `0` fall back to the automatic sizing
(`chunk_size or default_chunk_size` in `__init__` plus `if self.chunk_size`
here collapse to exactly that test). -/
def calculateOptimalChunkSize (cfgChunkSize : Option Int) (maxWorkers total : Nat) : Int :=
  match cfgChunkSize with
  | some k => if k = 0 then Int.ofNat (autoChunkSize maxWorkers total) else k
  | none => Int.ofNat (autoChunkSize maxWorkers total)

/-- Slicing loop of `create_chunks` (lines 98-100) for a positive chunk size;
the size is the successor argument `k + 1`, which makes the recursion
well-founded without a side condition. -/
def createChunksFuel (k : Nat) : Nat → List α → List (List α)
  | _, [] => []
  | 0, _ :: _ => []
  | fuel + 1, c :: rest =>
    (c :: rest).take (k + 1) :: createChunksFuel k fuel ((c :: rest).drop (k + 1))

/-- Entry point of the slicing loop: the fuel `l.length` suffices because a
nonempty list loses at least one element per slice. -/
def createChunksNat (k : Nat) (l : List α) : List (List α) :=
  createChunksFuel k l.length l

/-- `create_chunks` (lines 83-103) for an arbitrary configured size: a
positive size slices the list; a negative size makes the Python
`range(0, n, step)` empty, so no chunks are produced. (A zero size would
raise in Python; it is unreachable because `calculate_optimal_chunk_size`
never returns 0, and is modelled as no chunks.) -/
def createChunks (k : Int) (l : List α) : List (List α) :=
  if 1 ≤ k then createChunksNat (k.toNat - 1) l else []

/-- A chunk-result dictionary (lines 146-155 and 159). The failure
dictionary carries only `chunk_id`, `error` and `success`; its absent record
lists are modelled as empty lists, which no code path reads. -/
structure ChunkResult (β γ δ : Type) where
  chunk_id : Nat
  success : Bool
  processed : List β
  openai : List γ
  cohere : List δ
  error : String
deriving DecidableEq

/-- The three record lists produced by one chunk task. -/
structure ChunkPayload (β γ δ : Type) where
  processed : List β
  openai : List γ
  cohere : List δ
deriving DecidableEq

/-- `ParallelDreamProcessor.process_chunk` (lines 105-159): the whole task
body sits in a `try`, so a raising body produces the failure dictionary
rather than propagating. -/
def processChunk (body : List α → Except String (ChunkPayload β γ δ))
    (chunk_id : Nat) (records : List α) : ChunkResult β γ δ :=
  match body records with
  | .ok p =>
    { chunk_id := chunk_id, success := true, processed := p.processed,
      openai := p.openai, cohere := p.cohere, error := "" }
  | .error e =>
    { chunk_id := chunk_id, success := false, processed := [], openai := [],
      cohere := [], error := e }

/-- `enumerate(chunks)` starting at `i` (line 189 uses `i = 0`). -/
def enumChunks (i : Nat) : List (List α) → List (Nat × List α)
  | [] => []
  | c :: cs => (i, c) :: enumChunks (i + 1) cs

/-- The canonical chunk-result list: one `process_chunk` result per
enumerated chunk, in chunk order. The executor hands these back in an
arbitrary order, modelled as any permutation of this list. -/
def canonicalResults (body : List α → Except String (ChunkPayload β γ δ))
    (chunks : List (List α)) : List (ChunkResult β γ δ) :=
  (enumChunks 0 chunks).map (fun p => processChunk body p.1 p.2)

/-- Successful results collected by the `as_completed` loop
(lines 203-216). -/
def collectSucceeded (completed : List (ChunkResult β γ δ)) : List (ChunkResult β γ δ) :=
  completed.filter (·.success)

/-- Failed chunk ids collected by the `as_completed` loop, in completion
order. -/
def collectFailedIds (completed : List (ChunkResult β γ δ)) : List Nat :=
  (completed.filter (fun r => !r.success)).map (·.chunk_id)

/-- The `results.sort(key=lambda x: x["chunk_id"])` call of
`_combine_results` (line 241). -/
def sortResults (results : List (ChunkResult β γ δ)) : List (ChunkResult β γ δ) :=
  List.insertionSort (fun a b => a.chunk_id ≤ b.chunk_id) results

/-- `ParallelDreamProcessor._combine_results` (lines 236-248): sort the
successful results by chunk id and concatenate their three record lists. -/
def combineResults (results : List (ChunkResult β γ δ)) : ChunkPayload β γ δ :=
  { processed := ((sortResults results).map (·.processed)).flatten,
    openai := ((sortResults results).map (·.openai)).flatten,
    cohere := ((sortResults results).map (·.cohere)).flatten }

/-- `ParallelDreamProcessor.process_parallel` (lines 161-234) after the
futures have completed: the empty input returns the empty result dictionary
early (lines 174-175); otherwise the collected results are combined and the
failed chunk ids attached. `completed` is the list of chunk results in
completion order. -/
def processParallelResult (records : List α)
    (completed : List (ChunkResult β γ δ)) : ChunkPayload β γ δ × List Nat :=
  if records.isEmpty then ({ processed := [], openai := [], cohere := [] }, [])
  else (combineResults (collectSucceeded completed), collectFailedIds completed)

/-- The per-chunk try block of `process_chunk` (lines 121-133) when nothing
raises: run the sequential batch algorithm on the slice, then both
formatters on its output. -/
def seqChunkBody (f : α → Option β) (g : β → List γ) (h : β → List δ)
    (records : List α) : Except String (ChunkPayload β γ δ) :=
  let processed := processBatch f records
  .ok { processed := processed, openai := formatBatch g processed,
        cohere := formatBatch h processed }

/-! ## Statement vocabulary: spec-side definitions

The following definitions formalise claim statements (and their amended
forms); they are compared against the source embeddings above by the
theorems below. -/

/-- Answer composition as the amended claim C6 words it: split on line
breaks into trimmed paragraphs, drop every paragraph of at most 30
characters (keeping only paragraphs longer than 30), keep at most the first
4 remaining paragraphs, rejoin with a blank-line separator, collapse
double-space artifacts, trim. -/
def answerCompositionSpec (content : String) : String :=
  String.mk (stripL (replaceDoubleSpace (List.intercalate "\n\n".toList
    ((((splitByChar '\n' content.toList).map stripL).filter
        (fun p => 30 < p.length)).take 4))))

/-- Whether a property entry is a mapping whose key case-insensitively
matches `seotitle` with a truthy value; if so, its trimmed value. -/
def seoTitleMatch : PropEntry → Option String
  | .nonDict => none
  | .dict ixName value =>
    let v := value.getD ""
    if pyLower (ixName.getD "") == "seotitle" && v != "" then some (pyStrip v)
    else none

/-- Whether a property entry is a mapping whose key case-insensitively
matches `seodescription` with a truthy value; if so, its trimmed value. -/
def seoDescriptionMatch : PropEntry → Option String
  | .nonDict => none
  | .dict ixName value =>
    let v := value.getD ""
    if pyLower (ixName.getD "") == "seodescription" && v != "" then
      some (pyStrip v)
    else none

/-- Whether an embedded chunk body succeeded. -/
def exceptOk : Except String σ → Bool
  | .ok _ => true
  | .error _ => false

/-- The chunk list a parallel run works on: `create_chunks` applied with the
effective chunk size of `calculate_optimal_chunk_size`. -/
def parallelRunChunks (cfgChunkSize : Option Int) (maxWorkers : Nat)
    (records : List α) : List (List α) :=
  createChunks (calculateOptimalChunkSize cfgChunkSize maxWorkers records.length)
    records

/-- The expected aggregate of one record-list field over the surviving
chunks, in chunk order: each successfully processed chunk contributes its
selected list, failed chunks contribute nothing. -/
def okAggregate (body : List α → Except String (ChunkPayload β γ δ))
    (chunks : List (List α)) (sel : ChunkPayload β γ δ → List ε) : List ε :=
  ((enumChunks 0 chunks).filterMap (fun p =>
    match body p.2 with
    | .ok pay => some (sel pay)
    | .error _ => none)).flatten

/-- The chunk ids on which the body fails, in chunk order. -/
def failedIdsOf (body : List α → Except String (ChunkPayload β γ δ))
    (chunks : List (List α)) : List Nat :=
  ((enumChunks 0 chunks).filter (fun p => !exceptOk (body p.2))).map Prod.fst

/-- Concatenation of the three record-list fields without the sorting step,
used to factor the `_combine_results` proofs. -/
def combineNoSort (results : List (ChunkResult β γ δ)) : ChunkPayload β γ δ :=
  { processed := (results.map (·.processed)).flatten,
    openai := (results.map (·.openai)).flatten,
    cohere := (results.map (·.cohere)).flatten }

/-! ## Concrete inputs for witnesses and counterexamples -/

/-- A record whose content holds exactly two indicator terms (`tabir`,
`nasip`), used to witness the validator characterisation. -/
def c3WitnessRecord : CleanedRecord :=
  { cleaned_content := "tabir ve nasip dolu", dream_symbol := "fare" }

/-- A record whose content is too short for any answer paragraph to
survive, used to witness the zero-example path of the formatters. -/
def c6WitnessRecord : CleanedRecord :=
  { cleaned_content := "kısa", dream_symbol := "fare" }

/-- A properties list with two entries matching `seotitle`; the claim
predicts the first value `A`, the code keeps the last value `B`. -/
def c7Props : PropertiesInput :=
  .list [.dict (some "seotitle") (some "A"), .dict (some "seotitle") (some "B")]

/-- Per-record function keeping the even numbers, a nontrivial filter for
the parallel-refinement witness. -/
def c1f : Nat → Option Nat := fun n => if n % 2 = 0 then some n else none

/-- The never-failing chunk body running the sequential algorithm with
`c1f` and trivial formatters. -/
def c1Body : List Nat → Except String (ChunkPayload Nat Unit Unit) :=
  seqChunkBody c1f (fun _ => []) (fun _ => [])

/-- The chunk results of the witness run for claim C1, collected in reverse
completion order to exercise the sort-by-chunk-id merge. -/
def c1Completed : List (ChunkResult Nat Unit Unit) :=
  (canonicalResults c1Body (parallelRunChunks (some 2) 1 [1, 2, 3])).reverse

/-- A chunk body failing exactly on the chunk `[3, 4]`, used to witness the
per-chunk failure isolation of claim C4. -/
def c4Body : List Nat → Except String (ChunkPayload Nat Unit Unit) :=
  fun l =>
    if l = [3, 4] then .error "boom"
    else .ok { processed := l, openai := [], cohere := [] }

/-- The chunk results of the witness run for claim C4, in reverse completion
order. -/
def c4Completed : List (ChunkResult Nat Unit Unit) :=
  (canonicalResults c4Body (parallelRunChunks (some 2) 1 [1, 2, 3, 4])).reverse


/-! ## Helper lemmas -/

/-- Every output of `pyLowerChar` is a mapped lower-case letter or the
unchanged input. -/
theorem pyLowerChar_mem_or_eq (c : Char) :
    pyLowerChar c ∈ lowerOutputs ∨ pyLowerChar c = c := by
  unfold pyLowerChar
  split
  all_goals first
    | (left; decide)
    | (right; rfl)

/-- `pyLowerChar` is idempotent. -/
theorem pyLowerChar_idem (c : Char) :
    pyLowerChar (pyLowerChar c) = pyLowerChar c := by
  rcases pyLowerChar_mem_or_eq c with h | h
  · have hall : ∀ x ∈ lowerOutputs, pyLowerChar x = x := by decide
    exact hall _ h
  · rw [h, h]

/-- Lower-casing never produces whitespace from non-whitespace. -/
theorem isPySpace_pyLowerChar (c : Char) (h : isPySpace c = false) :
    isPySpace (pyLowerChar c) = false := by
  rcases pyLowerChar_mem_or_eq c with hm | he
  · have hall : ∀ x ∈ lowerOutputs, isPySpace x = false := by decide
    exact hall _ hm
  · rw [he]; exact h

/-- Word characters are not whitespace. -/
theorem isWordChar_not_space (c : Char) (h : isWordChar c = true) :
    isPySpace c = false := by
  by_contra hs
  have hs' : isPySpace c = true := by
    cases hps : isPySpace c
    · exact absurd hps hs
    · rfl
  simp only [isPySpace, Bool.or_eq_true, beq_iff_eq] at hs'
  rcases hs' with ((((h1 | h1) | h1) | h1) | h1) | h1 <;>
    (subst h1; exact absurd h (by decide))

/-! ## Claim C2 -/

/-- Claim C2 (code bug): applying the Quality Analyzer to an empty record
list does NOT return a zero-valued report — the cultural-authenticity
sub-analysis divides `has_traditional_context` by `len(records)` without a
guard (quality_checker.py lines 369-371), so `analyze_batch([])` raises
`ZeroDivisionError` instead of returning the guarded report the claim (and
spec section 7) promises. -/
theorem claim_C2_analyzeBatch_empty_raises :
    analyzeBatch [] = Except.error "ZeroDivisionError" := by rfl

/-! ## Claim C3 -/

/-- Claim C3: the Record Validator accepts a record iff the cleaned content
is non-empty, at least `min_content_length` long, the dream symbol is
non-empty, and at least two distinct terms of the fixed indicator list occur
as substrings of the case-folded content; consequently every accepted
record meets the length bound and has a non-empty dream symbol. -/
theorem claim_C3_validator_iff (r : CleanedRecord) (minContentLength : Nat) :
    (validateRecordQuality r minContentLength = true ↔
      (r.cleaned_content ≠ "" ∧
       minContentLength ≤ r.cleaned_content.length ∧
       r.dream_symbol ≠ "" ∧
       2 ≤ countTurkishIndicators r.cleaned_content)) ∧
    (validateRecordQuality r minContentLength = true →
      minContentLength ≤ r.cleaned_content.length ∧ r.dream_symbol ≠ "") := by
  have hiff : validateRecordQuality r minContentLength = true ↔
      (r.cleaned_content ≠ "" ∧
       minContentLength ≤ r.cleaned_content.length ∧
       r.dream_symbol ≠ "" ∧
       2 ≤ countTurkishIndicators r.cleaned_content) := by
    unfold validateRecordQuality
    split_ifs with h1 h2 h3 h4
    · simp only [beq_iff_eq] at h1
      simp [h1]
    · simp only [beq_iff_eq] at h1
      constructor
      · intro hf; cases hf
      · rintro ⟨-, hle, -, -⟩; omega
    · simp only [beq_iff_eq] at h3
      constructor
      · intro hf; cases hf
      · rintro ⟨-, -, hs, -⟩; exact absurd h3 hs
    · constructor
      · intro hf; cases hf
      · rintro ⟨-, -, -, hc⟩; omega
    · simp only [beq_iff_eq] at h1 h3
      refine ⟨fun _ => ⟨h1, by omega, h3, by omega⟩, fun _ => rfl⟩
  exact ⟨hiff, fun hv => ⟨(hiff.mp hv).2.1, (hiff.mp hv).2.2.1⟩⟩

/-- Witness for claim C3 at a concrete accepted record: the hypotheses of
the consequence are discharged by evaluation. -/
theorem claim_C3_witness :
    10 ≤ c3WitnessRecord.cleaned_content.length ∧ c3WitnessRecord.dream_symbol ≠ "" :=
  (claim_C3_validator_iff c3WitnessRecord 10).2 (by decide)

/-! ## Claim C5 -/

/-- Claim C5: the shared question generator truncates the combined question
list to at most 4 entries, so each format emitter produces at most 4
training examples per cleaned record. -/
theorem claim_C5_cap (r : CleanedRecord) :
    (generateQuestions r.dream_symbol r).length ≤ 4 ∧
    (openaiFormatSingleRecord r).length ≤ 4 ∧
    (cohereFormatSingleRecord r).length ≤ 4 := by
  have hq : ∀ ds, (generateQuestions ds r).length ≤ 4 := fun _ =>
    List.length_take_le _ _
  refine ⟨hq _, ?_, ?_⟩
  · simp only [openaiFormatSingleRecord]
    split
    · simp
    · simpa using hq r.dream_symbol
  · simp only [cohereFormatSingleRecord]
    split
    · simp
    · simpa using hq r.dream_symbol

/-! ## Claim C9 -/

/-- Claim C9: the chat-style and prompt/completion-style emitters share the
same content guard and question generator, so they produce the same number
of training examples per record and over any batch. -/
theorem claim_C9_equal_counts :
    (∀ r : CleanedRecord,
      (openaiFormatSingleRecord r).length = (cohereFormatSingleRecord r).length) ∧
    (∀ records : List CleanedRecord,
      (formatBatch openaiFormatSingleRecord records).length =
        (formatBatch cohereFormatSingleRecord records).length) := by
  have hsingle : ∀ r : CleanedRecord,
      (openaiFormatSingleRecord r).length = (cohereFormatSingleRecord r).length := by
    intro r
    simp only [openaiFormatSingleRecord, cohereFormatSingleRecord]
    by_cases hc : cleanContentForAnswer r.cleaned_content == "" <;> simp [hc]
  refine ⟨hsingle, ?_⟩
  intro records
  induction records with
  | nil => rfl
  | cons r t ih =>
    simp only [formatBatch, List.map_cons, List.flatten_cons,
      List.length_append] at ih ⊢
    rw [hsingle r, ih]

/-! ## Claim C8 -/

/-- Claim C8: the content quality score always lies in [0, 100] — it starts
at 100, only the fixed penalties are subtracted, and it is floored at 0 —
and empty content scores 0. -/
theorem claim_C8_score_bounds (content : String) :
    0 ≤ (analyzeContentQuality content).quality_score ∧
    (analyzeContentQuality content).quality_score ≤ 100 ∧
    (analyzeContentQuality "").quality_score = 0 := by
  refine ⟨?_, ?_, rfl⟩ <;>
  · cases hc : content == ""
    all_goals
      have hlp : 0 ≤ lengthPenalty content ∧ lengthPenalty content ≤ 30 := by
        unfold lengthPenalty; split_ifs <;> omega
      have hn : (0 : Int) ≤ 15 * (noiseFound content).length := by positivity
      simp only [analyzeContentQuality, hc, if_true, if_false, Bool.false_eq_true]
      omega

/-! ## Claim C6 -/

/-- The paragraph filter of `clean_content_for_answer` subsumes the
drop-empty comprehension: a paragraph longer than 30 characters is in
particular nonempty. -/
theorem cleanAnswer_filter_absorb (ps : List (List Char)) :
    (ps.filter (fun p => !p.isEmpty)).filter (fun p => 30 < p.length) =
      ps.filter (fun p => 30 < p.length) := by
  rw [List.filter_filter]
  apply List.filter_congr
  intro p _
  cases p with
  | nil => rfl
  | cons c t => simp

/-- The conditional truncation `if len(paragraphs) > 4` is plain `take 4`. -/
theorem cleanAnswer_take_if (ps : List (List Char)) :
    (if 4 < ps.length then ps.take 4 else ps) = ps.take 4 := by
  split_ifs with h
  · rfl
  · rw [List.take_of_length_le]
    omega

/-- The code path of `clean_content_for_answer` on character lists equals
the spec-side composition with the `> 30` paragraph filter. -/
theorem cleanAnswerL_eq_spec (l : List Char) :
    cleanAnswerL l =
      stripL (replaceDoubleSpace (List.intercalate "\n\n".toList
        ((((splitByChar '\n' l).map stripL).filter
            (fun p => 30 < p.length)).take 4))) := by
  show stripL (replaceDoubleSpace (List.intercalate "\n\n".toList
      (if 4 < ((((splitByChar '\n' l).map stripL).filter (fun p => !p.isEmpty)).filter
            (fun p => 30 < p.length)).length
       then ((((splitByChar '\n' l).map stripL).filter (fun p => !p.isEmpty)).filter
            (fun p => 30 < p.length)).take 4
       else (((splitByChar '\n' l).map stripL).filter (fun p => !p.isEmpty)).filter
            (fun p => 30 < p.length)))) = _
  rw [cleanAnswer_take_if, cleanAnswer_filter_absorb]

/-- Counterexample to claim C6 as stated: the claim keeps every paragraph of
at least 30 characters, so on a single trimmed 30-character paragraph it
predicts a nonempty result (the paragraph itself); the code keeps only
paragraphs strictly longer than 30 characters and returns the empty
string. -/
theorem claim_C6_counterexample :
    ("abcdefghijklmnopqrstuvwxyzabcd" : String).length = 30 ∧
    cleanContentForAnswer "abcdefghijklmnopqrstuvwxyzabcd" = "" := by
  constructor
  · decide
  · decide

/-- Claim C6 as amended: the answer composition splits on line breaks into
trimmed paragraphs, keeps only paragraphs LONGER than 30 characters
(dropping those of 30 or fewer), keeps at most the first 4, rejoins with a
blank-line separator, collapses double spaces and trims; and whenever it
yields the empty string the record produces zero training examples in both
formats. -/
theorem claim_C6_amended (content : String) (r : CleanedRecord) :
    cleanContentForAnswer content = answerCompositionSpec content ∧
    (cleanContentForAnswer r.cleaned_content = "" →
      openaiFormatSingleRecord r = [] ∧ cohereFormatSingleRecord r = []) := by
  constructor
  · by_cases hc : content = ""
    · subst hc; rfl
    · have hbeq : (content == "") = false := by simp [hc]
      unfold cleanContentForAnswer answerCompositionSpec
      simp only [hbeq, Bool.false_eq_true, if_false]
      exact congrArg String.mk (cleanAnswerL_eq_spec _)
  · intro h
    have hbeq : (cleanContentForAnswer r.cleaned_content == "") = true := by
      simp [h]
    constructor <;>
      simp [openaiFormatSingleRecord, cohereFormatSingleRecord, hbeq]

/-- Witness for claim C6: on a record whose content is a short single
paragraph the composed answer is empty and both emitters produce zero
examples. -/
theorem claim_C6_witness :
    openaiFormatSingleRecord c6WitnessRecord = [] ∧
    cohereFormatSingleRecord c6WitnessRecord = [] :=
  (claim_C6_amended "" c6WitnessRecord).2 (by decide)

/-! ## Claim C7 -/

/-- Counterexample to claim C7 as stated: with two `seotitle` entries the
claim predicts the FIRST trimmed value `A`, but the loop overwrites the
field on every match, so the code returns the LAST value `B`. -/
theorem claim_C7_counterexample :
    (extractSeoContent c7Props).seo_title = "B" ∧
    (extractSeoContent c7Props).seo_title ≠ "A" := by
  constructor
  · decide
  · decide

/-- The loop step writes to `seo_title` exactly when `seoTitleMatch` fires,
with the trimmed value. -/
theorem extractSeoStep_title (acc : SeoContent) (e : PropEntry) :
    (extractSeoStep acc e).seo_title = (seoTitleMatch e).getD acc.seo_title := by
  cases e with
  | nonDict => rfl
  | dict ixName value =>
    simp only [extractSeoStep, seoTitleMatch]
    cases htc : (pyLower (ixName.getD "") == "seotitle" && value.getD "" != "") with
    | true => simp
    | false =>
      simp only [Bool.false_eq_true, if_false, Option.getD_none]
      split_ifs <;> rfl

/-- The loop step writes to `seo_description` exactly when
`seoDescriptionMatch` fires, with the trimmed value. -/
theorem extractSeoStep_description (acc : SeoContent) (e : PropEntry) :
    (extractSeoStep acc e).seo_description =
      (seoDescriptionMatch e).getD acc.seo_description := by
  cases e with
  | nonDict => rfl
  | dict ixName value =>
    simp only [extractSeoStep, seoDescriptionMatch]
    cases htc : (pyLower (ixName.getD "") == "seotitle" && value.getD "" != "") with
    | true =>
      have hkey : pyLower (ixName.getD "") = "seotitle" :=
        beq_iff_eq.mp (Bool.and_eq_true .. |>.mp htc).1
      have hne : (pyLower (ixName.getD "") == "seodescription" &&
          value.getD "" != "") = false := by
        rw [hkey]
        simp
      simp [hne]
    | false =>
      simp only [Bool.false_eq_true, if_false]
      split_ifs <;> simp

/-- Auxiliary: chaining two `getD` fallbacks is a `getD` over `Option.or`. -/
theorem getD_or_assoc (A B : Option String) (x : String) :
    A.getD (B.getD x) = (A.or B).getD x := by
  cases A <;> cases B <;> rfl

/-- Folding the loop from an accumulator takes, per field, the value of the
last matching entry, i.e. the first match in the reversed entry list. -/
theorem extractSeo_foldl (entries : List PropEntry) (acc : SeoContent) :
    ((entries.foldl extractSeoStep acc).seo_title =
      (entries.reverse.findSome? seoTitleMatch).getD acc.seo_title) ∧
    ((entries.foldl extractSeoStep acc).seo_description =
      (entries.reverse.findSome? seoDescriptionMatch).getD acc.seo_description) := by
  induction entries generalizing acc with
  | nil => exact ⟨rfl, rfl⟩
  | cons e t ih =>
    have hsingle1 : List.findSome? seoTitleMatch [e] = seoTitleMatch e := by
      cases h : seoTitleMatch e <;> simp [List.findSome?_cons, h]
    have hsingle2 : List.findSome? seoDescriptionMatch [e] = seoDescriptionMatch e := by
      cases h : seoDescriptionMatch e <;> simp [List.findSome?_cons, h]
    constructor
    · rw [List.foldl_cons, (ih (extractSeoStep acc e)).1, extractSeoStep_title,
        List.reverse_cons, List.findSome?_append, hsingle1]
      exact getD_or_assoc _ _ _
    · rw [List.foldl_cons, (ih (extractSeoStep acc e)).2, extractSeoStep_description,
        List.reverse_cons, List.findSome?_append, hsingle2]
      exact getD_or_assoc _ _ _

/-- Claim C7 as amended: a non-list input yields empty strings for both
fields without raising; non-mapping entries are skipped; and each field
holds the trimmed value of the LAST matching entry whose value is non-empty
(empty when no entry matches). -/
theorem claim_C7_amended (entries : List PropEntry) :
    extractSeoContent .notList = { seo_title := "", seo_description := "" } ∧
    (extractSeoContent (.list entries)).seo_title =
      (entries.reverse.findSome? seoTitleMatch).getD "" ∧
    (extractSeoContent (.list entries)).seo_description =
      (entries.reverse.findSome? seoDescriptionMatch).getD "" := by
  refine ⟨rfl, ?_, ?_⟩
  · exact (extractSeo_foldl entries {}).1
  · exact (extractSeo_foldl entries {}).2

/-! ## Parallel-run machinery lemmas for claims C1 and C4 -/

/-- The chunk id recorded by `process_chunk` is the submitted id, whether the
body succeeds or raises. -/
theorem processChunk_chunk_id (body : List α → Except String (ChunkPayload β γ δ))
    (i : Nat) (c : List α) : (processChunk body i c).chunk_id = i := by
  unfold processChunk
  cases body c <;> rfl

/-- The success flag of a chunk result reflects whether the body
succeeded. -/
theorem processChunk_success (body : List α → Except String (ChunkPayload β γ δ))
    (i : Nat) (c : List α) : (processChunk body i c).success = exceptOk (body c) := by
  unfold processChunk exceptOk
  cases body c <;> rfl

/-- Every id in `enumChunks i l` is at least `i`. -/
theorem enumChunks_fst_le (l : List (List α)) :
    ∀ i, ∀ p ∈ enumChunks i l, i ≤ p.1 := by
  induction l with
  | nil => intro i p hp; cases hp
  | cons c cs ih =>
    intro i p hp
    cases hp with
    | head => exact Nat.le_refl i
    | tail _ hmem => exact Nat.le_of_succ_le (ih (i + 1) p hmem)

/-- The ids of `enumChunks` are strictly increasing. -/
theorem enumChunks_pairwise (l : List (List α)) :
    ∀ i, List.Pairwise (fun a b => a.1 < b.1) (enumChunks i l) := by
  induction l with
  | nil => intro i; exact List.Pairwise.nil
  | cons c cs ih =>
    intro i
    exact List.Pairwise.cons
      (fun p hp => Nat.lt_of_succ_le (enumChunks_fst_le cs (i + 1) p hp)) (ih (i + 1))

/-- Dropping the indices of `enumChunks` recovers the chunk list. -/
theorem enumChunks_map_snd (l : List (List α)) :
    ∀ i, (enumChunks i l).map Prod.snd = l := by
  induction l with
  | nil => intro i; rfl
  | cons c cs ih => intro i; simp [enumChunks, ih]

/-- The canonical chunk-result list has strictly increasing chunk ids. -/
theorem canonicalResults_pairwise (body : List α → Except String (ChunkPayload β γ δ))
    (chunks : List (List α)) :
    List.Pairwise (fun a b : ChunkResult β γ δ => a.chunk_id < b.chunk_id)
      (canonicalResults body chunks) := by
  unfold canonicalResults
  rw [List.pairwise_map]
  exact (enumChunks_pairwise chunks 0).imp
    (fun {_ _} h => by simpa [processChunk_chunk_id] using h)

instance chunkLeTotal : IsTotal (ChunkResult β γ δ)
    (fun a b => a.chunk_id ≤ b.chunk_id) :=
  ⟨fun x y => Nat.le_total x.chunk_id y.chunk_id⟩

instance chunkLeTrans : IsTrans (ChunkResult β γ δ)
    (fun a b => a.chunk_id ≤ b.chunk_id) :=
  ⟨fun _ _ _ => Nat.le_trans⟩

instance chunkLtAntisymm : IsAntisymm (ChunkResult β γ δ)
    (fun a b => a.chunk_id < b.chunk_id) :=
  ⟨fun _ _ h1 h2 => absurd h1 (Nat.lt_asymm h2)⟩

/-- Sorting any permutation of a list with strictly increasing chunk ids by
chunk id recovers that list: completion order is irrelevant to the merged
output. -/
theorem sortResults_perm_eq (l m : List (ChunkResult β γ δ)) (hp : m.Perm l)
    (hs : List.Pairwise (fun a b : ChunkResult β γ δ => a.chunk_id < b.chunk_id) l) :
    sortResults m = l := by
  unfold sortResults
  have hperm : (List.insertionSort
      (fun a b : ChunkResult β γ δ => a.chunk_id ≤ b.chunk_id) m).Perm l :=
    (List.perm_insertionSort (fun a b => a.chunk_id ≤ b.chunk_id) m).trans hp
  have hsorted : List.Sorted (fun a b : ChunkResult β γ δ => a.chunk_id ≤ b.chunk_id)
      (List.insertionSort (fun a b : ChunkResult β γ δ => a.chunk_id ≤ b.chunk_id) m) :=
    List.sorted_insertionSort (fun a b => a.chunk_id ≤ b.chunk_id) m
  have hnodupl : (l.map (·.chunk_id)).Nodup := by
    rw [List.Nodup, List.pairwise_map]
    exact hs.imp (fun h => Nat.ne_of_lt h)
  have hnodups : ((List.insertionSort
      (fun a b : ChunkResult β γ δ => a.chunk_id ≤ b.chunk_id) m).map (·.chunk_id)).Nodup :=
    ((hperm.map (·.chunk_id)).nodup_iff).mpr hnodupl
  have hne : List.Pairwise
      (fun a b : ChunkResult β γ δ => a.chunk_id ≠ b.chunk_id)
      (List.insertionSort (fun a b : ChunkResult β γ δ => a.chunk_id ≤ b.chunk_id) m) := by
    rw [List.Nodup, List.pairwise_map] at hnodups
    exact hnodups
  have hlt : List.Sorted (fun a b : ChunkResult β γ δ => a.chunk_id < b.chunk_id)
      (List.insertionSort (fun a b : ChunkResult β γ δ => a.chunk_id ≤ b.chunk_id) m) :=
    (hsorted.and hne).imp (fun h => Nat.lt_of_le_of_ne h.1 h.2)
  exact List.eq_of_perm_of_sorted hperm hlt hs

/-- Unfolding one result in `combineNoSort`. -/
theorem combineNoSort_cons (r : ChunkResult β γ δ) (rs : List (ChunkResult β γ δ)) :
    combineNoSort (r :: rs) =
      { processed := r.processed ++ (combineNoSort rs).processed,
        openai := r.openai ++ (combineNoSort rs).openai,
        cohere := r.cohere ++ (combineNoSort rs).cohere } := rfl

/-- Filtering and concatenating the canonical results in chunk order yields
exactly the per-chunk aggregates of the surviving chunks. -/
theorem combineNoSort_canonical (body : List α → Except String (ChunkPayload β γ δ))
    (L : List (Nat × List α)) :
    combineNoSort ((L.map (fun p => processChunk body p.1 p.2)).filter (·.success)) =
      { processed := (L.filterMap (fun p =>
          match body p.2 with
          | .ok pay => some pay.processed
          | .error _ => none)).flatten,
        openai := (L.filterMap (fun p =>
          match body p.2 with
          | .ok pay => some pay.openai
          | .error _ => none)).flatten,
        cohere := (L.filterMap (fun p =>
          match body p.2 with
          | .ok pay => some pay.cohere
          | .error _ => none)).flatten } := by
  induction L with
  | nil => rfl
  | cons p t ih =>
    rw [List.map_cons, List.filter_cons, List.filterMap_cons, List.filterMap_cons,
      List.filterMap_cons]
    cases hb : body p.2 with
    | ok pay =>
      have hs : (processChunk body p.1 p.2).success = true := by
        rw [processChunk_success, hb]; rfl
      have h1 : (processChunk body p.1 p.2).processed = pay.processed := by
        simp only [processChunk, hb]
      have h2 : (processChunk body p.1 p.2).openai = pay.openai := by
        simp only [processChunk, hb]
      have h3 : (processChunk body p.1 p.2).cohere = pay.cohere := by
        simp only [processChunk, hb]
      simp only [hs, if_true, combineNoSort_cons, h1, h2, h3, ih,
        List.flatten_cons]
    | error e =>
      have hs : (processChunk body p.1 p.2).success = false := by
        rw [processChunk_success, hb]; rfl
      simp only [hs, Bool.false_eq_true, if_false, ih]

/-- The failed ids collected from the canonical results are the ids of the
chunks on which the body raises, in chunk order. -/
theorem collectFailedIds_canonical (body : List α → Except String (ChunkPayload β γ δ))
    (L : List (Nat × List α)) :
    collectFailedIds (L.map (fun p => processChunk body p.1 p.2)) =
      (L.filter (fun p => !exceptOk (body p.2))).map Prod.fst := by
  induction L with
  | nil => rfl
  | cons p t ih =>
    rw [collectFailedIds, List.map_cons, List.filter_cons, List.filter_cons]
    cases hb : body p.2 with
    | ok pay =>
      have hs : (!(processChunk body p.1 p.2).success) = false := by
        rw [processChunk_success, hb]; rfl
      have hs2 : (!exceptOk (Except.ok pay : Except String (ChunkPayload β γ δ))) = false := rfl
      rw [hs, hs2]
      simp only [Bool.false_eq_true, if_false]
      exact ih
    | error e =>
      have hs : (!(processChunk body p.1 p.2).success) = true := by
        rw [processChunk_success, hb]; rfl
      have hs2 : (!exceptOk (Except.error e : Except String (ChunkPayload β γ δ))) = true := rfl
      have hid : (processChunk body p.1 p.2).chunk_id = p.1 :=
        processChunk_chunk_id body p.1 p.2
      rw [hs, hs2]
      simp only [if_true, List.map_cons, hid]
      rw [collectFailedIds] at ih
      rw [ih]

/-- Auxiliary flattening bound for the slicing loop: with enough fuel the
slices concatenate back to the input. -/
theorem createChunksFuel_flatten (k : Nat) :
    ∀ (fuel : Nat) (l : List α), l.length ≤ fuel →
      (createChunksFuel k fuel l).flatten = l := by
  intro fuel
  induction fuel with
  | zero =>
    intro l hl
    cases l with
    | nil => rfl
    | cons c rest => simp at hl
  | succ n ih =>
    intro l hl
    cases l with
    | nil => rfl
    | cons c rest =>
      rw [createChunksFuel, List.flatten_cons, ih]
      · exact List.take_append_drop (k + 1) (c :: rest)
      · simp only [List.length_drop, List.length_cons]
        simp only [List.length_cons] at hl
        omega

/-- Concatenating the contiguous slices of `create_chunks` recovers the
input list. -/
theorem createChunksNat_flatten (k : Nat) (l : List α) :
    (createChunksNat k l).flatten = l :=
  createChunksFuel_flatten k l.length l (Nat.le_refl _)

/-- For a positive chunk size, `create_chunks` partitions the input: the
chunks concatenate back to the record list. -/
theorem createChunks_flatten (k : Int) (l : List α) (hk : 1 ≤ k) :
    (createChunks k l).flatten = l := by
  unfold createChunks
  rw [if_pos hk]
  exact createChunksNat_flatten _ l

/-- The automatic chunk size is always positive. -/
theorem autoChunkSize_pos (maxWorkers total : Nat) :
    1 ≤ autoChunkSize maxWorkers total := by
  unfold autoChunkSize
  split_ifs <;> omega

/-- With a positive (or absent) configured chunk size, the effective chunk
size is positive. -/
theorem calculateOptimalChunkSize_pos (cfgChunkSize : Option Int)
    (maxWorkers total : Nat) (hcfg : ∀ k, cfgChunkSize = some k → 0 < k) :
    1 ≤ calculateOptimalChunkSize cfgChunkSize maxWorkers total := by
  cases cfgChunkSize with
  | none =>
    simp only [calculateOptimalChunkSize, Int.ofNat_eq_natCast]
    exact_mod_cast autoChunkSize_pos maxWorkers total
  | some k =>
    have hk : 0 < k := hcfg k rfl
    have hne : ¬(k = 0) := by omega
    simp only [calculateOptimalChunkSize]
    rw [if_neg hne]
    omega

/-- The sequential batch distributes over concatenation of record lists. -/
theorem processBatch_append (f : α → Option β) (l₁ l₂ : List α) :
    processBatch f (l₁ ++ l₂) = processBatch f l₁ ++ processBatch f l₂ :=
  List.filterMap_append l₁ l₂ f

/-- Running the sequential batch on the concatenation of the chunks equals
concatenating the per-chunk sequential batches. -/
theorem processBatch_flatten (f : α → Option β) (chunks : List (List α)) :
    (chunks.map (processBatch f)).flatten = processBatch f chunks.flatten := by
  induction chunks with
  | nil => rfl
  | cons c cs ih =>
    rw [List.map_cons, List.flatten_cons, List.flatten_cons, processBatch_append, ih]

/-- Central characterisation of a parallel run: for any completion order of
the chunk futures, the combined result dictionary holds exactly the
chunk-ordered aggregates of the surviving chunks, and the failed-chunk list
is (a completion-ordered permutation of) the ids of the raising chunks. -/
theorem processParallelResult_spec (body : List α → Except String (ChunkPayload β γ δ))
    (records : List α) (cfgChunkSize : Option Int) (maxWorkers : Nat)
    (completed : List (ChunkResult β γ δ))
    (hperm : completed.Perm (canonicalResults body
      (parallelRunChunks cfgChunkSize maxWorkers records))) :
    (processParallelResult records completed).1 =
      { processed := okAggregate body (parallelRunChunks cfgChunkSize maxWorkers records)
          (·.processed),
        openai := okAggregate body (parallelRunChunks cfgChunkSize maxWorkers records)
          (·.openai),
        cohere := okAggregate body (parallelRunChunks cfgChunkSize maxWorkers records)
          (·.cohere) } ∧
    (processParallelResult records completed).2.Perm
      (failedIdsOf body (parallelRunChunks cfgChunkSize maxWorkers records)) := by
  by_cases hempty : records.isEmpty
  · have hrec : records = [] := List.isEmpty_iff.mp hempty
    subst hrec
    have hchunks : parallelRunChunks cfgChunkSize maxWorkers ([] : List α) = [] := by
      unfold parallelRunChunks createChunks
      split_ifs <;> rfl
    rw [hchunks] at hperm ⊢
    have hcompleted : completed = [] := hperm.eq_nil
    subst hcompleted
    exact ⟨rfl, List.Perm.refl _⟩
  · have hout : processParallelResult records completed =
        (combineResults (collectSucceeded completed), collectFailedIds completed) := by
      unfold processParallelResult
      rw [if_neg hempty]
    constructor
    · rw [hout]
      have h1 : (collectSucceeded completed).Perm
          ((canonicalResults body (parallelRunChunks cfgChunkSize maxWorkers
            records)).filter (·.success)) :=
        hperm.filter _
      have h2 : List.Pairwise (fun a b : ChunkResult β γ δ => a.chunk_id < b.chunk_id)
          ((canonicalResults body (parallelRunChunks cfgChunkSize maxWorkers
            records)).filter (·.success)) :=
        List.Pairwise.sublist (List.filter_sublist _)
          (canonicalResults_pairwise body _)
      have h3 : sortResults (collectSucceeded completed) =
          (canonicalResults body (parallelRunChunks cfgChunkSize maxWorkers
            records)).filter (·.success) :=
        sortResults_perm_eq _ _ h1 h2
      have h4 : combineResults (collectSucceeded completed) =
          combineNoSort (sortResults (collectSucceeded completed)) := rfl
      rw [h4, h3]
      exact combineNoSort_canonical body
        (enumChunks 0 (parallelRunChunks cfgChunkSize maxWorkers records))
    · rw [hout]
      have h5 : (collectFailedIds completed).Perm
          (collectFailedIds (canonicalResults body
            (parallelRunChunks cfgChunkSize maxWorkers records))) :=
        (hperm.filter _).map _
      have h6 := collectFailedIds_canonical body
        (enumChunks 0 (parallelRunChunks cfgChunkSize maxWorkers records))
      unfold canonicalResults at h5
      rw [h6] at h5
      exact h5

/-! ## Claim C4 -/

/-- Claim C4: a chunk task whose body raises is caught at the batch
processor boundary and recorded as a failed chunk carrying its id and error
text; it contributes nothing to the aggregated processed/openai/cohere
lists, which hold exactly the surviving chunk results in chunk order; the
run completes with the failed chunk ids surfaced (in completion order) in
the combined result. -/
theorem claim_C4_chunk_failure_isolation
    (body : List α → Except String (ChunkPayload β γ δ))
    (records : List α) (cfgChunkSize : Option Int) (maxWorkers : Nat)
    (completed : List (ChunkResult β γ δ))
    (hperm : completed.Perm (canonicalResults body
      (parallelRunChunks cfgChunkSize maxWorkers records))) :
    (∀ i c e,
      (i, c) ∈ enumChunks 0 (parallelRunChunks cfgChunkSize maxWorkers records) →
      body c = .error e →
        processChunk body i c =
          { chunk_id := i, success := false, processed := [], openai := [],
            cohere := [], error := e } ∧
        i ∈ (processParallelResult records completed).2) ∧
    (processParallelResult records completed).1 =
      { processed := okAggregate body (parallelRunChunks cfgChunkSize maxWorkers records)
          (·.processed),
        openai := okAggregate body (parallelRunChunks cfgChunkSize maxWorkers records)
          (·.openai),
        cohere := okAggregate body (parallelRunChunks cfgChunkSize maxWorkers records)
          (·.cohere) } ∧
    (processParallelResult records completed).2.Perm
      (failedIdsOf body (parallelRunChunks cfgChunkSize maxWorkers records)) := by
  have hspec := processParallelResult_spec body records cfgChunkSize maxWorkers
    completed hperm
  refine ⟨?_, hspec.1, hspec.2⟩
  intro i c e hmem herr
  constructor
  · unfold processChunk
    rw [herr]
  · have hfail : i ∈ failedIdsOf body
        (parallelRunChunks cfgChunkSize maxWorkers records) := by
      unfold failedIdsOf
      have hfilter : (i, c) ∈ (enumChunks 0
          (parallelRunChunks cfgChunkSize maxWorkers records)).filter
            (fun p => !exceptOk (body p.2)) :=
        List.mem_filter.mpr ⟨hmem, by rw [herr]; rfl⟩
      exact List.mem_map_of_mem Prod.fst hfilter
    exact (hspec.2.mem_iff).mpr hfail

/-- Witness for claim C4: a two-chunk run whose second chunk raises, with
results arriving in reverse completion order — the failed id 1 is surfaced
and only the first chunk contributes records. -/
theorem claim_C4_witness :
    1 ∈ (processParallelResult ([1, 2, 3, 4] : List Nat) c4Completed).2 ∧
    (processParallelResult ([1, 2, 3, 4] : List Nat) c4Completed).1.processed =
      [1, 2] := by
  have h := claim_C4_chunk_failure_isolation c4Body [1, 2, 3, 4] (some 2) 1
    c4Completed (List.reverse_perm _)
  refine ⟨(h.1 1 [3, 4] "boom" (by decide) (by rfl)).2, ?_⟩
  have hp := congrArg ChunkPayload.processed h.2.1
  exact hp.trans (by decide)

/-! ## Claim C1 -/

/-- Counterexample to claim C1 as stated over EVERY worker/chunk-size
configuration: with the configuration `chunk_size = -1` the Python
`range(0, n, -1)` of `create_chunks` is empty, so the run produces no
chunks at all (hence no chunk fails) and the concurrent path returns no
records, while the sequential path over the same one-record input returns
that record. -/
theorem claim_C1_counterexample :
    parallelRunChunks (some (-1)) 4 ([1] : List Nat) = [] ∧
    (processParallelResult ([1] : List Nat)
      ([] : List (ChunkResult Nat Unit Unit))).1.processed = [] ∧
    (processParallelResult ([1] : List Nat)
      ([] : List (ChunkResult Nat Unit Unit))).2 = [] ∧
    processBatch (fun n : Nat => some n) [1] = [1] ∧
    (processParallelResult ([1] : List Nat)
      ([] : List (ChunkResult Nat Unit Unit))).1.processed ≠
      processBatch (fun n : Nat => some n) [1] := by
  refine ⟨by decide, by rfl, by rfl, by rfl, by decide⟩

/-- Reduction of the surviving-chunk aggregate for a never-failing
sequential body: it is the sequential batch of the concatenated chunks. -/
theorem okAggregate_seq_aux (f : α → Option β) (g : β → List γ) (h : β → List δ) :
    ∀ L : List (Nat × List α),
      (L.filterMap (fun p =>
        match seqChunkBody f g h p.2 with
        | .ok pay => some pay.processed
        | .error _ => none)).flatten =
      processBatch f ((L.map Prod.snd).flatten) := by
  intro L
  induction L with
  | nil => rfl
  | cons p t ih =>
    simp only [seqChunkBody] at ih ⊢
    simp only [List.filterMap_cons, List.map_cons, List.flatten_cons]
    rw [processBatch_append, ih]

/-- Claim C1 as amended: for every record list, every worker count and every
chunk-size configuration whose override (when set) is positive, the
concurrent batch path — chunking, per-chunk sequential processing, merge of
surviving results sorted by chunk id — yields exactly the record sequence
of the sequential path, with no failed chunks. -/
theorem claim_C1_parallel_refines_sequential (f : α → Option β) (g : β → List γ)
    (h : β → List δ) (records : List α) (cfgChunkSize : Option Int)
    (maxWorkers : Nat) (completed : List (ChunkResult β γ δ))
    (hcfg : ∀ k, cfgChunkSize = some k → 0 < k)
    (hperm : completed.Perm (canonicalResults (seqChunkBody f g h)
      (parallelRunChunks cfgChunkSize maxWorkers records))) :
    (processParallelResult records completed).1.processed = processBatch f records ∧
    (processParallelResult records completed).2 = [] := by
  have hspec := processParallelResult_spec (seqChunkBody f g h) records cfgChunkSize
    maxWorkers completed hperm
  have hpos : 1 ≤ calculateOptimalChunkSize cfgChunkSize maxWorkers records.length :=
    calculateOptimalChunkSize_pos cfgChunkSize maxWorkers records.length hcfg
  constructor
  · have hp := congrArg ChunkPayload.processed hspec.1
    rw [hp]
    have hagg : okAggregate (seqChunkBody f g h)
        (parallelRunChunks cfgChunkSize maxWorkers records) (·.processed) =
        processBatch f (((enumChunks 0 (parallelRunChunks cfgChunkSize maxWorkers
          records)).map Prod.snd).flatten) :=
      okAggregate_seq_aux f g h _
    rw [hagg, enumChunks_map_snd]
    unfold parallelRunChunks
    rw [createChunks_flatten _ _ hpos]
  · have hok : ∀ p ∈ enumChunks 0 (parallelRunChunks cfgChunkSize maxWorkers records),
        ¬((!exceptOk (seqChunkBody f g h p.2)) = true) := by
      intro p _
      intro hcontra
      cases hcontra
    have hnil : failedIdsOf (seqChunkBody f g h)
        (parallelRunChunks cfgChunkSize maxWorkers records) = [] := by
      unfold failedIdsOf
      rw [List.filter_eq_nil_iff.mpr hok]
      rfl
    rw [hnil] at hspec
    exact hspec.2.eq_nil

/-- Witness for claim C1: a three-record run in two chunks, filtering to the
even records, with chunk results arriving in reverse order — the merged
output equals the sequential result and no chunk failed. -/
theorem claim_C1_witness :
    (processParallelResult ([1, 2, 3] : List Nat) c1Completed).1.processed =
      processBatch c1f [1, 2, 3] ∧
    (processParallelResult ([1, 2, 3] : List Nat) c1Completed).2 = [] ∧
    processBatch c1f [1, 2, 3] = [2] := by
  have h := claim_C1_parallel_refines_sequential c1f (fun _ => []) (fun _ => [])
    [1, 2, 3] (some 2) 1 c1Completed
    (by intro k hk; cases hk; decide)
    (List.reverse_perm _)
  exact ⟨h.1, h.2, by decide⟩

/-! ## Claim C10 -/

/-- A property of captures transfers from the anchored matcher to the
left-to-right search. -/
theorem searchScan_sound (f : List Char → Option (List Char))
    (P : List Char → Prop) (hf : ∀ s w, f s = some w → P w) :
    ∀ l w, searchScan f l = some w → P w := by
  intro l
  induction l with
  | nil => intro w hw; exact hf [] w hw
  | cons c t ih =>
    intro w hw
    rw [searchScan] at hw
    cases hm : f (c :: t) with
    | some v =>
      rw [hm] at hw
      cases hw
      exact hf _ _ hm
    | none =>
      rw [hm] at hw
      exact ih w hw

/-- The capture of the first pattern is a nonempty run of word
characters. -/
theorem matchAt1_sound (s w : List Char) (h : matchAt1 s = some w) :
    w ≠ [] ∧ ∀ c ∈ w, isWordChar c = true := by
  simp only [matchAt1] at h
  cases h1 : matchCI "Rüyada".toList s with
  | none => rw [h1] at h; cases h
  | some r1 =>
    simp only [h1] at h
    split_ifs at h with g1 g2 g3
    cases h2 : matchCI "Görmek".toList
        (((r1.dropWhile isPySpace).dropWhile isWordChar).dropWhile isPySpace) with
    | none => rw [h2] at h; cases h
    | some r4 =>
      rw [h2] at h
      cases h
      exact ⟨g2, fun c hc => List.mem_takeWhile_imp hc⟩

/-- The capture of the second pattern is a nonempty run of word
characters. -/
theorem matchAt2_sound (s w : List Char) (h : matchAt2 s = some w) :
    w ≠ [] ∧ ∀ c ∈ w, isWordChar c = true := by
  simp only [matchAt2] at h
  cases h1 : matchCI "Rüyada".toList s with
  | none => rw [h1] at h; cases h
  | some r1 =>
    simp only [h1] at h
    split_ifs at h with g1 g2
    cases h
    exact ⟨g2, fun c hc => List.mem_takeWhile_imp hc⟩

/-- The capture of the third pattern is a nonempty run of word
characters. -/
theorem matchAt3_sound (s w : List Char) (h : matchAt3 s = some w) :
    w ≠ [] ∧ ∀ c ∈ w, isWordChar c = true := by
  simp only [matchAt3] at h
  split_ifs at h with g1 g2
  cases h2 : matchCI "Görmek".toList
      ((s.dropWhile isWordChar).dropWhile isPySpace) with
  | none => rw [h2] at h; cases h
  | some r4 =>
    rw [h2] at h
    cases h
    exact ⟨g1, fun c hc => List.mem_takeWhile_imp hc⟩

/-- Any symbol returned by the per-pattern step is nonempty, already fully
lower-cased, whitespace-free and not stoplisted, provided the match it came
from is a nonempty run of word characters. -/
theorem tryPattern_sound (res : Option (List Char)) (s : String)
    (hres : ∀ w, res = some w → w ≠ [] ∧ ∀ c ∈ w, isWordChar c = true)
    (h : tryPattern res = some s) :
    s ≠ "" ∧ pyLower s = s ∧ (∀ c ∈ s.toList, isPySpace c = false) ∧
      s ∉ symbolStoplist := by
  cases res with
  | none => cases h
  | some w =>
    obtain ⟨hne, hword⟩ := hres w rfl
    simp only [tryPattern] at h
    split_ifs at h with hstop
    cases h
    refine ⟨?_, ?_, ?_, hstop⟩
    · intro heq
      apply hne
      have hdata : lowerL w = [] := congrArg String.data heq
      exact List.map_eq_nil_iff.mp hdata
    · show String.mk (lowerL (lowerL w)) = String.mk (lowerL w)
      refine congrArg String.mk ?_
      unfold lowerL
      rw [List.map_map]
      exact List.map_congr_left (fun c _ => pyLowerChar_idem c)
    · intro c hc
      obtain ⟨x, hx, rfl⟩ := List.mem_map.mp hc
      exact isPySpace_pyLowerChar x (isWordChar_not_space x (hword x hx))

/-- Claim C10: for every title, `extract_dream_symbol` returns either the
empty string or a nonempty, fully lower-cased, whitespace-free word that is
not in the stoplist. -/
theorem claim_C10_symbol_invariant (title : String) :
    extractDreamSymbol title = "" ∨
    (extractDreamSymbol title ≠ "" ∧
     pyLower (extractDreamSymbol title) = extractDreamSymbol title ∧
     (∀ c ∈ (extractDreamSymbol title).toList, isPySpace c = false) ∧
     extractDreamSymbol title ∉ symbolStoplist) := by
  unfold extractDreamSymbol
  split_ifs with hempty
  · left; rfl
  · cases h1 : tryPattern (searchScan matchAt1 title.toList) with
    | some s =>
      simp only [h1]
      right
      exact tryPattern_sound _ s
        (fun w hw => searchScan_sound matchAt1 _ matchAt1_sound title.toList w hw) h1
    | none =>
      simp only [h1]
      cases h2 : tryPattern (searchScan matchAt2 title.toList) with
      | some s =>
        simp only [h2]
        right
        exact tryPattern_sound _ s
          (fun w hw => searchScan_sound matchAt2 _ matchAt2_sound title.toList w hw) h2
      | none =>
        simp only [h2]
        cases h3 : tryPattern (searchScan matchAt3 title.toList) with
        | some s =>
          simp only [h3]
          right
          exact tryPattern_sound _ s
            (fun w hw => searchScan_sound matchAt3 _ matchAt3_sound title.toList w hw) h3
        | none =>
          simp only [h3]
          left
          trivial

/-- Witness for claim C10 at a concrete title: the extracted symbol is
nonempty, so the invariants of the right disjunct hold for it. -/
theorem claim_C10_witness :
    pyLower (extractDreamSymbol "Rüyada Yılan Görmek") =
      extractDreamSymbol "Rüyada Yılan Görmek" ∧
    extractDreamSymbol "Rüyada Yılan Görmek" ∉ symbolStoplist := by
  have h := (claim_C10_symbol_invariant "Rüyada Yılan Görmek").resolve_left (by decide)
  exact ⟨h.2.1, h.2.2.2⟩
